import Mathlib

/-!
Verification of the news-aggregation component (`NewsService`) of the
news-ai repository.  The TypeScript class is shallowly embedded here:
strings are lists of characters, JavaScript regular expressions are
translated into executable character-list scanners, the asynchronous
provider calls are modelled by `Except`-valued outcome parameters, and
the wall clock is an explicit `now` parameter.
-/

namespace NewsAI

/-- Strings of the embedded program, as lists of characters. -/
abbrev Str := List Char

/-- Coerce a Lean string literal into the embedding's string type. -/
def str (s : String) : Str := s.data

/-- JavaScript whitespace (the ASCII part relevant to `trim` and `\s`). -/
def isWs (c : Char) : Bool :=
  c = ' ' || c = '\t' || c = '\n' || c = '\r' || c = '\x0b' || c = '\x0c'

/-- ASCII digit, as in the regex class `\d`. -/
def isDigitCh (c : Char) : Bool := '0' ≤ c && c ≤ '9'

/-- ASCII upper-case letter, as in the regex class `[A-Z]`. -/
def isUpperCh (c : Char) : Bool := 'A' ≤ c && c ≤ 'Z'

/-- ASCII lower-case letter, as in the regex class `[a-z]`. -/
def isLowerCh (c : Char) : Bool := 'a' ≤ c && c ≤ 'z'

/-- ASCII letter, as in the regex class `[A-Za-z]`. -/
def isLetterCh (c : Char) : Bool := isUpperCh c || isLowerCh c

/-- Word character, as in the regex class `\w` = `[A-Za-z0-9_]`. -/
def isWordCh (c : Char) : Bool := isLetterCh c || isDigitCh c || c = '_'

/-- ASCII lower-casing of one character (JavaScript `toLowerCase` on ASCII). -/
def toLowerCh (c : Char) : Char :=
  if isUpperCh c then Char.ofNat (c.toNat + 32) else c

/-- ASCII lower-casing of a string. -/
def toLowerStr (s : Str) : Str := s.map toLowerCh

/-- JavaScript `String.prototype.trim` (ASCII whitespace). -/
def trimChars (s : Str) : Str :=
  ((s.dropWhile isWs).reverse.dropWhile isWs).reverse

/-- JavaScript `content.split('\n')`. -/
def splitLines : Str → List Str
  | [] => [[]]
  | c :: rest =>
    if c = '\n' then [] :: splitLines rest
    else
      match splitLines rest with
      | l :: ls => (c :: l) :: ls
      | [] => [[c]]

/-- The line list of `parseNewsResponse`:
`content.split('\n').filter(line => line.trim())`. -/
def linesOf (content : Str) : List Str :=
  (splitLines content).filter (fun l => !(trimChars l).isEmpty)

/-- Test for the regex `/^\d+\./`. -/
def startsNumberDot (s : Str) : Bool :=
  let ds := s.takeWhile isDigitCh
  !ds.isEmpty &&
    (match s.drop ds.length with
     | '.' :: _ => true
     | _ => false)

/-- Helper for the regex `/^[A-Z][^.]*:/`: after the leading capital,
some colon must occur before any period. -/
def colonBeforeDot : Str → Bool
  | [] => false
  | c :: rest =>
    if c = ':' then true
    else if c = '.' then false
    else colonBeforeDot rest

/-- Embedding of `NewsService.looksLikeTitle`. -/
def looksLikeTitle (s : Str) : Bool :=
  startsNumberDot s ||
  (match s with
   | c :: _ => c = '•' || c = '-' || c = '*'
   | [] => false) ||
  (match s with
   | c :: rest => isUpperCh c && colonBeforeDot rest
   | [] => false) ||
  (s.length < 100 &&
    (match s with
     | c :: _ => isUpperCh c
     | [] => false) &&
    !(s.getLast? == some '.'))

/-- Replacement of `/^\d+\.\s*/` by the empty string. -/
def stripNumbering (s : Str) : Str :=
  let ds := s.takeWhile isDigitCh
  if ds.isEmpty then s
  else
    match s.drop ds.length with
    | '.' :: rest => rest.dropWhile isWs
    | _ => s

/-- Replacement of `/^[•\-\*]\s*/` by the empty string. -/
def stripBullet (s : Str) : Str :=
  match s with
  | c :: rest =>
    if c = '•' || c = '-' || c = '*' then rest.dropWhile isWs else s
  | [] => s

/-- Replacement of `/\s*-\s*[^-]*$/` by the empty string: when the string
contains a dash, everything from the last dash on is removed, together
with the run of whitespace immediately before that dash. -/
def stripTrailingSource (s : Str) : Str :=
  if s.contains '-' then
    ((((s.reverse.dropWhile (fun c => c != '-')).drop 1).dropWhile isWs)).reverse
  else s

/-- Embedding of `NewsService.cleanTitle`. -/
def cleanTitle (s : Str) : Str :=
  trimChars (stripTrailingSource (stripBullet (stripNumbering s)))

/-- Case-insensitive keyword match at the start of a string
(the keyword is given lower-case). -/
def ciPrefixAt : Str → Str → Bool
  | [], _ => true
  | _ :: _, [] => false
  | p :: ps, c :: cs => p = toLowerCh c && ciPrefixAt ps cs

/-- Tail test for the first source regex
`/(?:Source:|via|from)\s*([A-Za-z\s]+)$/i`: after the keyword the rest of
the string must be non-empty and consist of letters and whitespace only. -/
def srcTailOkA (rest : Str) : Bool :=
  !rest.isEmpty && rest.all (fun c => isLetterCh c || isWs c)

/-- Leftmost match of `/(?:Source:|via|from)\s*([A-Za-z\s]+)$/i`, returning
the trimmed capture group. -/
def extractSourceA : Str → Option Str
  | [] => none
  | c :: rest =>
    let s := c :: rest
    if ciPrefixAt (str "source:") s && srcTailOkA (s.drop 7) then
      some (trimChars (s.drop 7))
    else if ciPrefixAt (str "via") s && srcTailOkA (s.drop 3) then
      some (trimChars (s.drop 3))
    else if ciPrefixAt (str "from") s && srcTailOkA (s.drop 4) then
      some (trimChars (s.drop 4))
    else extractSourceA rest

/-- Deterministic automaton for `[A-Z][a-z]+(?:\s+[A-Z][a-z]+)*$`:
state 0 expects a capital, state 1 the first lower-case letter of a word,
state 2 is inside a lower-case run (accepting at end of input), state 3 is
inside the whitespace between words. -/
def capWordsDFA : Nat → Str → Bool
  | 0, [] => false
  | 0, c :: rest => if isUpperCh c then capWordsDFA 1 rest else false
  | 1, [] => false
  | 1, c :: rest => if isLowerCh c then capWordsDFA 2 rest else false
  | 2, [] => true
  | 2, c :: rest =>
    if isLowerCh c then capWordsDFA 2 rest
    else if isWs c then capWordsDFA 3 rest
    else false
  | 3, [] => false
  | 3, c :: rest =>
    if isWs c then capWordsDFA 3 rest
    else if isUpperCh c then capWordsDFA 1 rest
    else false
  | _ + 4, _ => false

/-- Leftmost match of the second source regex — a dash, optional
whitespace, then `[A-Z][a-z]+(?:\s+[A-Z][a-z]+)*` up to the end of the
string — returning the capture group (which never has surrounding
whitespace). -/
def extractSourceB : Str → Option Str
  | [] => none
  | c :: rest =>
    if c = '-' then
      let t := rest.dropWhile isWs
      if capWordsDFA 0 t then some t else extractSourceB rest
    else extractSourceB rest

/-- Embedding of `NewsService.extractSource`: the first regex is tried,
then the second; `undefined` becomes `none`. -/
def extractSource (s : Str) : Option Str :=
  match extractSourceA s with
  | some r => some r
  | none => extractSourceB s

/-- The relative-time words of the date regex, lower-case. -/
def timeWords : List Str :=
  [str "today", str "yesterday", str "this morning",
   str "this afternoon", str "earlier today"]

/-- Plain list-equality on a leading segment. -/
def prefixAt : Str → Str → Bool
  | [], _ => true
  | _ :: _, [] => false
  | p :: ps, c :: cs => p = c && prefixAt ps cs

/-- A pattern matches at the start of `s` (already lower-cased) with a
word boundary after it. -/
def wordAt (pat s : Str) : Bool :=
  prefixAt pat s &&
    (match s.drop pat.length with
     | [] => true
     | c :: _ => !isWordCh c)

/-- Scan for `\b(?:today|yesterday|this morning|this afternoon|earlier today)\b`
over a lower-cased string, tracking the previous character for the left
word boundary. -/
def hasTimeWordAux (prev : Option Char) : Str → Bool
  | [] => false
  | c :: rest =>
    ((match prev with
      | none => true
      | some p => !isWordCh p) &&
      timeWords.any (fun w => wordAt w (c :: rest))) ||
    hasTimeWordAux (some c) rest

/-- Test for the case-insensitive date regex of `extractDate`. -/
def hasTimeWord (s : Str) : Bool := hasTimeWordAux none (toLowerStr s)

/-- Embedding of `NewsService.extractDate`; the current time is the
explicit parameter `now`. -/
def extractDate (now s : Str) : Option Str :=
  if hasTimeWord s then some now else none

/-- Embedding of the TypeScript interface `NewsArticle`. -/
structure NewsArticle where
  title : Str
  summary : Str
  url : Option Str := none
  source : Option Str := none
  publishedAt : Option Str := none
deriving DecidableEq, Repr

/-- Embedding of the TypeScript interface `NewsResponse`. -/
structure NewsResponse where
  articles : List NewsArticle
  query : Str
  timestamp : Str
deriving DecidableEq, Repr

/-- The accumulator `currentArticle` of the parsing loop, once a title
line has been seen (`Partial<NewsArticle>` with `title` assigned). -/
structure PartialArticle where
  title : Str
  summary : Str
  source : Option Str
  publishedAt : Option Str
deriving DecidableEq, Repr

/-- Casting the accumulator to a finished article (`as NewsArticle`). -/
def PartialArticle.toArticle (p : PartialArticle) : NewsArticle :=
  { title := p.title, summary := p.summary, url := none,
    source := p.source, publishedAt := p.publishedAt }

/-- The push guarded by `currentArticle.title && currentArticle.summary`:
the accumulated article is appended only when both strings are non-empty
(JavaScript truthiness of strings). -/
def finalizeCur (cur : Option PartialArticle) (arts : List NewsArticle) :
    List NewsArticle :=
  match cur with
  | some c =>
    if c.title ≠ [] ∧ c.summary ≠ [] then arts ++ [c.toArticle] else arts
  | none => arts

/-- One iteration of the `for (const line of lines)` loop of
`parseNewsResponse` (`trimChars line` is the loop's `trimmedLine`). -/
def stepLine (now : Str)
    (st : Option PartialArticle × List NewsArticle) (line : Str) :
    Option PartialArticle × List NewsArticle :=
  if trimChars line = [] then st
  else if looksLikeTitle (trimChars line) then
    (some { title := cleanTitle (trimChars line), summary := [],
            source := extractSource (trimChars line),
            publishedAt := extractDate now (trimChars line) },
     finalizeCur st.1 st.2)
  else
    match st.1 with
    | some cur =>
      if cur.title ≠ [] ∧ 20 < (trimChars line).length then
        (some { cur with
                summary :=
                  if cur.summary = [] then trimChars line
                  else cur.summary ++ [' '] ++ trimChars line },
         st.2)
      else st
    | none => st

/-- The final state of the line-scanning loop of `parseNewsResponse`. -/
def scanState (content now : Str) :
    Option PartialArticle × List NewsArticle :=
  (linesOf content).foldl (stepLine now) (none, [])

/-- The article list produced by the line-scanning loop of
`parseNewsResponse`, including the final push of the last open article. -/
def scanArticles (content now : Str) : List NewsArticle :=
  finalizeCur (scanState content now).1 (scanState content now).2

/-- The single article synthesized when parsing produced nothing but the
content is non-blank. -/
def fallbackArticle (content now : Str) : NewsArticle :=
  { title := str "Latest News Summary",
    summary := (trimChars content).take 500 ++
      (if 500 < content.length then str "..." else []),
    url := none, source := none, publishedAt := some now }

/-- The article list of `parseNewsResponse` before the final truncation. -/
def parsedOrFallback (content now : Str) : List NewsArticle :=
  if scanArticles content now = [] ∧ trimChars content ≠ [] then
    [fallbackArticle content now]
  else scanArticles content now

/-- Embedding of `NewsService.parseNewsResponse`: the scan loop, the
single-fallback-article path when nothing was parsed and the content is
non-blank, and the final truncation to five articles. -/
def parseNewsResponse (content now : Str) : List NewsArticle :=
  (parsedOrFallback content now).take 5

/-- Embedding of `NewsService.getMockNews`. -/
def getMockNews (query : Str) (limit : Nat) (now : Str) : NewsResponse :=
  { articles :=
      ([{ title := str "Latest Updates on " ++ query,
          summary := str "We are currently experiencing technical difficulties with our news sources. Please try again later for the most recent updates.",
          url := none, source := some (str "News AI Bot"),
          publishedAt := some now },
        { title := str "Service Notice",
          summary := str "Our news service is temporarily unavailable. We are working to restore full functionality as soon as possible.",
          url := none, source := some (str "System"),
          publishedAt := some now }] : List NewsArticle).take limit,
    query := query, timestamp := now }

/-- One article of the structured-data provider's response, with the
fields `getNewsFromNewsAPI` reads; absent (`undefined`/`null`) JSON
fields are `none`. -/
structure RawArticle where
  title : Str
  description : Option Str
  content : Option Str
  url : Option Str
  sourceName : Option Str
  publishedAt : Option Str
deriving DecidableEq, Repr

/-- The summary used when `article.description` is falsy:
`article.content?.substring(0, 200) + '...'` — note that an absent
content gives the literal JavaScript string `"undefined..."`. -/
def rawFallbackSummary (a : RawArticle) : Str :=
  (match a.content with
   | some c => c.take 200
   | none => str "undefined") ++ str "..."

/-- The per-article mapping inside `getNewsFromNewsAPI`; the `||`
picks the description only when it is a non-empty string. -/
def mapRawArticle (a : RawArticle) : NewsArticle :=
  { title := a.title,
    summary :=
      match a.description with
      | some d => if d ≠ [] then d else rawFallbackSummary a
      | none => rawFallbackSummary a,
    url := a.url, source := a.sourceName, publishedAt := a.publishedAt }

/-- Embedding of `NewsService.getNewsFromPerplexity`.  The network
outcome is the parameter `perp`: an error models a thrown request, a
success carries `response.data.choices[0]?.message?.content`, to which
the code applies `|| ''` before parsing. -/
def getNewsFromPerplexity (perp : Except Unit (Option Str))
    (query : Str) (limit : Nat) (now : Str) : Except Unit NewsResponse :=
  match perp with
  | Except.error e => Except.error e
  | Except.ok optContent =>
    Except.ok
      { articles := parseNewsResponse (optContent.getD []) now,
        query := query, timestamp := now }

/-- Embedding of `NewsService.getNewsFromNewsAPI`: an empty key throws
before any request; otherwise the outcome `resp` carries the articles of
`response.data.articles`, mapped one by one. -/
def getNewsFromNewsAPI (newsApiKey : Str)
    (resp : Except Unit (List RawArticle))
    (query : Str) (limit : Nat) (now : Str) : Except Unit NewsResponse :=
  if newsApiKey = [] then Except.error ()
  else
    match resp with
    | Except.error e => Except.error e
    | Except.ok raws =>
      Except.ok
        { articles := raws.map mapRawArticle,
          query := query, timestamp := now }

/-- Embedding of `NewsService.getLatestNews`: try the primary provider,
fall back to the alternate provider, and finish with the mock result. -/
def getLatestNews (perp : Except Unit (Option Str)) (newsApiKey : Str)
    (resp : Except Unit (List RawArticle))
    (query : Str) (limit : Nat) (now : Str) : Except Unit NewsResponse :=
  match getNewsFromPerplexity perp query limit now with
  | Except.ok r => Except.ok r
  | Except.error _ =>
    match getNewsFromNewsAPI newsApiKey resp query limit now with
    | Except.ok r => Except.ok r
    | Except.error _ => Except.ok (getMockNews query limit now)

/-- The property names inherited by every plain JavaScript object
literal from `Object.prototype`; accessing any of them on the category
table yields a truthy (non-string) value. -/
def objectProtoProps : List Str :=
  [str "constructor", str "hasOwnProperty", str "isPrototypeOf",
   str "propertyIsEnumerable", str "toLocaleString", str "toString",
   str "valueOf", str "__defineGetter__", str "__defineSetter__",
   str "__lookupGetter__", str "__lookupSetter__", str "__proto__"]

/-- Outcome of a JavaScript property access on the category table: an
own entry (a template string), a truthy non-string property inherited
from `Object.prototype`, or `undefined`. -/
inductive PropLookup where
  | ownStr (s : Str)
  | inherited (name : Str)
  | undef
deriving DecidableEq, Repr

/-- The value of the `query` variable of `getNewsByCategory`: either a
string, or the non-string truthy value inherited from
`Object.prototype` when the label collides with one of its property
names. -/
inductive QueryValue where
  | ofStr (s : Str)
  | ofInherited (name : Str)
deriving DecidableEq, Repr

/-- Embedding of the object access `categoryQueries[c]` of
`getNewsByCategory`, including the prototype chain: the eight own
entries are the template strings; a key naming a property inherited
from `Object.prototype` yields that (truthy, non-string) property;
every other key yields `undefined`. -/
def categoryQueries (c : Str) : PropLookup :=
  if c = str "technology" then
    PropLookup.ownStr (str "latest technology news today")
  else if c = str "business" then
    PropLookup.ownStr (str "latest business and finance news today")
  else if c = str "sports" then
    PropLookup.ownStr (str "latest sports news today")
  else if c = str "health" then
    PropLookup.ownStr (str "latest health and medical news today")
  else if c = str "science" then
    PropLookup.ownStr (str "latest science and research news today")
  else if c = str "politics" then
    PropLookup.ownStr (str "latest political news today")
  else if c = str "world" then
    PropLookup.ownStr (str "latest world news today")
  else if c = str "entertainment" then
    PropLookup.ownStr (str "latest entertainment news today")
  else if objectProtoProps.contains c then PropLookup.inherited c
  else PropLookup.undef

/-- The query computed by `getNewsByCategory`:
`categoryQueries[category.toLowerCase()] || generic-template`.  The
inherited `Object.prototype` properties are truthy, so the `||`
fallback fires only on `undefined`. -/
def categoryQuery (category : Str) : QueryValue :=
  match categoryQueries (toLowerStr category) with
  | PropLookup.ownStr s => QueryValue.ofStr s
  | PropLookup.inherited n => QueryValue.ofInherited n
  | PropLookup.undef =>
    QueryValue.ofStr (str "latest " ++ category ++ str " news today")

/-- Embedding of `NewsService.getNewsByCategory`: delegation to
`getLatestNews` on the computed query.  When the lookup hit an
inherited `Object.prototype` property the query is not a string, and
the resulting response — whose `query` field then carries that
non-string value — is not representable by this embedding's
`NewsResponse` type; that case is marked `none` rather than being given
an invented behavior. -/
def getNewsByCategory (perp : Except Unit (Option Str)) (newsApiKey : Str)
    (resp : Except Unit (List RawArticle))
    (category : Str) (limit : Nat) (now : Str) :
    Option (Except Unit NewsResponse) :=
  match categoryQuery category with
  | QueryValue.ofStr s =>
    some (getLatestNews perp newsApiKey resp s limit now)
  | QueryValue.ofInherited _ => none

/-- Number of items of an aggregation outcome (zero for an error). -/
def itemsLen (e : Except Unit NewsResponse) : Nat :=
  match e with
  | Except.ok r => r.articles.length
  | Except.error _ => 0

/-- The sample free text of testable property 4 of the specification. -/
def c4input : Str :=
  str "1. Storm Hits City\nHeavy rain caused flooding across downtown. - Local News\n2. Market Rally\nStocks rose sharply today."

/-- A primary-provider reply whose free text parses into two articles. -/
def c1content : Str :=
  str "1. Alpha Beta\nThis is a long enough summary line for it.\n2. Gamma Delta\nAnother long enough summary line for it."

/-- A structured-provider article with a present but empty description
and a present content text. -/
def c8raw : RawArticle :=
  { title := str "Title", description := some [],
    content := some (str "Full story text"),
    url := none, sourceName := none, publishedAt := none }

/-- A content text with a trimmed non-empty body and no line matching
any title heuristic. -/
def c6wContent : Str := str "plain lowercase text with no title lines at all"

/-- A content text that parses into one ordinary article. -/
def c9wContent : Str := str "1. Good Title\nA long enough summary sentence for this."

/-- A content text whose single title line carries a relative-time word. -/
def c10wContent : Str := str "1. Big News today\nA sufficiently long summary sentence."

/-- The single article parsed from `c9wContent`. -/
def c9wArticle : NewsArticle :=
  { title := str "Good Title",
    summary := str "A long enough summary sentence for this.",
    url := none, source := none, publishedAt := none }

/-- The single article scanned from `c10wContent`, with the clock "T". -/
def c10wArticle : NewsArticle :=
  { title := str "Big News today",
    summary := str "A sufficiently long summary sentence.",
    url := none, source := none, publishedAt := some (str "T") }

/-- The scan-loop invariant of interest for C10: the given fields were
all extracted from one title line of the ambient line list `L`. -/
def fromTitleLine (now : Str) (L : List Str) (title : Str)
    (source publishedAt : Option Str) : Prop :=
  ∃ l, l ∈ L ∧ looksLikeTitle (trimChars l) = true ∧
    title = cleanTitle (trimChars l) ∧
    source = extractSource (trimChars l) ∧
    publishedAt = extractDate now (trimChars l)

theorem parseNewsResponse_length_le (content now : Str) :
    (parseNewsResponse content now).length ≤ 5 := by
  simp only [parseNewsResponse]
  exact List.length_take_le ..

/-- C5: for every input text, the sequence of items returned by
`parseNewsResponse` has length at most 5, regardless of the
caller-supplied limit and even when more than 5 lines satisfy the title
heuristics. -/
theorem parse_at_most_five (content now : Str) :
    (parseNewsResponse content now).length ≤ 5 :=
  parseNewsResponse_length_le content now

/-- C4 counterexample: on the sample text of the specification,
`parseNewsResponse` yields exactly one item, not the claimed two — the
second line ("Heavy rain caused flooding across downtown. - Local News")
is itself classified as a title, so the first article is discarded with
an empty summary. -/
theorem c4_counterexample :
    (parseNewsResponse c4input (str "T")).length = 1 ∧
    (parseNewsResponse c4input (str "T")).length ≠ 2 := by decide

/-- C4 amended: parsing the sample text yields exactly one item, with
title "Market Rally", summary "Stocks rose sharply today.", no source
and no `publishedAt` (the relative-time word "today" occurs only in a
summary line, and `extractDate` is applied to title lines only). -/
theorem parse_sample_text_result (now : Str) :
    parseNewsResponse c4input now =
      [{ title := str "Market Rally",
         summary := str "Stocks rose sharply today.",
         url := none, source := none, publishedAt := none }] := rfl

/-- C6 counterexample: the one-space input is a non-empty text none of
whose lines satisfies a title heuristic (it has no non-blank line at
all), yet `parseNewsResponse` returns no item rather than the claimed
single fallback item. -/
theorem c6_counterexample :
    str " " ≠ [] ∧ parseNewsResponse (str " ") (str "T") = [] := by decide

/-- C1 counterexample: with limit 1 and a primary-provider reply whose
free text parses into two articles, `getLatestNews` returns 2 items,
exceeding the limit. -/
theorem c1_counterexample :
    itemsLen (getLatestNews (Except.ok (some c1content)) (str "k")
      (Except.ok []) (str "q") 1 (str "T")) = 2 ∧
    ¬ itemsLen (getLatestNews (Except.ok (some c1content)) (str "k")
      (Except.ok []) (str "q") 1 (str "T")) ≤ 1 := by decide

/-- C1 amended: the number of items of `getLatestNews` is bounded by 5
(not by the limit) when the primary provider answers; it is bounded by
the limit when the alternate provider answers with at most `limit`
articles (the code copies the response 1:1, relying on the server-side
page size), and bounded by the limit on the placeholder path. -/
theorem getLatestNews_items_bounds (perp : Except Unit (Option Str))
    (key : Str) (resp : Except Unit (List RawArticle))
    (q : Str) (limit : Nat) (now : Str) :
    (∀ c, perp = Except.ok c →
      itemsLen (getLatestNews perp key resp q limit now) ≤ 5) ∧
    (∀ raws, perp = Except.error () → key ≠ [] →
      resp = Except.ok raws → raws.length ≤ limit →
      itemsLen (getLatestNews perp key resp q limit now) ≤ limit) ∧
    (perp = Except.error () → (key = [] ∨ resp = Except.error ()) →
      itemsLen (getLatestNews perp key resp q limit now) ≤ limit) := by
  refine ⟨?_, ?_, ?_⟩
  · rintro c rfl
    simp only [getLatestNews, getNewsFromPerplexity, itemsLen]
    exact parseNewsResponse_length_le _ _
  · rintro raws rfl hkey rfl hlen
    simp only [getLatestNews, getNewsFromPerplexity, getNewsFromNewsAPI,
      if_neg hkey, itemsLen]
    simpa using hlen
  · rintro rfl hor
    have hmock : itemsLen (Except.ok (getMockNews q limit now)) ≤ limit := by
      simp only [itemsLen, getMockNews]
      exact List.length_take_le ..
    rcases hor with rfl | rfl
    · simpa [getLatestNews, getNewsFromPerplexity, getNewsFromNewsAPI]
        using hmock
    · by_cases hk : key = []
      · simpa [getLatestNews, getNewsFromPerplexity, getNewsFromNewsAPI, hk]
          using hmock
      · simpa [getLatestNews, getNewsFromPerplexity, getNewsFromNewsAPI, hk]
          using hmock

/-- C1 amended, witness: the placeholder path at limit 3 returns at most
3 items. -/
theorem getLatestNews_items_bounds_witness :
    itemsLen (getLatestNews (Except.error ()) [] (Except.ok [])
      (str "q") 3 (str "T")) ≤ 3 :=
  (getLatestNews_items_bounds (Except.error ()) [] (Except.ok [])
    (str "q") 3 (str "T")).2.2 rfl (Or.inl rfl)

/-- C2: when the primary attempt fails and the alternate attempt fails
(missing credential or request error), `getLatestNews` still returns a
successful `NewsResponse` with the query echoed and the timestamp
populated, propagating no provider error. -/
theorem getLatestNews_no_raise (key : Str)
    (resp : Except Unit (List RawArticle)) (q : Str) (limit : Nat)
    (now : Str) (h : key = [] ∨ resp = Except.error ()) :
    ∃ r, getLatestNews (Except.error ()) key resp q limit now =
        Except.ok r ∧ r.query = q ∧ r.timestamp = now := by
  refine ⟨getMockNews q limit now, ?_, rfl, rfl⟩
  rcases h with rfl | rfl
  · simp [getLatestNews, getNewsFromPerplexity, getNewsFromNewsAPI]
  · by_cases hk : key = [] <;>
      simp [getLatestNews, getNewsFromPerplexity, getNewsFromNewsAPI, hk]

/-- C2 witness: both providers failing at a concrete call still yields a
successful response echoing the query and timestamp. -/
theorem getLatestNews_no_raise_witness :
    ∃ r, getLatestNews (Except.error ()) [] (Except.ok [])
        (str "q") 5 (str "T") = Except.ok r ∧
      r.query = str "q" ∧ r.timestamp = str "T" :=
  getLatestNews_no_raise [] (Except.ok []) (str "q") 5 (str "T")
    (Or.inl rfl)

/-- C3: when both provider attempts fail, `getLatestNews` returns
exactly `min limit 2` placeholder items, each with source "System" or
"News AI Bot" and `publishedAt` equal to the call time. -/
theorem getLatestNews_placeholder_shape (key : Str)
    (resp : Except Unit (List RawArticle)) (q : Str) (limit : Nat)
    (now : Str) (hlim : 1 ≤ limit)
    (h : key = [] ∨ resp = Except.error ()) :
    ∃ r, getLatestNews (Except.error ()) key resp q limit now =
        Except.ok r ∧
      r.articles.length = min limit 2 ∧
      ∀ a ∈ r.articles,
        (a.source = some (str "System") ∨
          a.source = some (str "News AI Bot")) ∧
        a.publishedAt = some now := by
  refine ⟨getMockNews q limit now, ?_, ?_, ?_⟩
  · rcases h with rfl | rfl
    · simp [getLatestNews, getNewsFromPerplexity, getNewsFromNewsAPI]
    · by_cases hk : key = [] <;>
        simp [getLatestNews, getNewsFromPerplexity, getNewsFromNewsAPI, hk]
  · simp [getMockNews, List.length_take]
  · intro a ha
    have ha' := List.mem_of_mem_take ha
    simp only [getMockNews, List.mem_cons, List.mem_singleton,
      List.not_mem_nil, or_false] at ha'
    rcases ha' with rfl | rfl
    · exact ⟨Or.inr rfl, rfl⟩
    · exact ⟨Or.inl rfl, rfl⟩

/-- C3 witness: at limit 1 the placeholder result has exactly one item
with the advertised source and timestamp. -/
theorem getLatestNews_placeholder_shape_witness :
    ∃ r, getLatestNews (Except.error ()) [] (Except.ok [])
        (str "q") 1 (str "T") = Except.ok r ∧
      r.articles.length = min 1 2 ∧
      ∀ a ∈ r.articles,
        (a.source = some (str "System") ∨
          a.source = some (str "News AI Bot")) ∧
        a.publishedAt = some (str "T") :=
  getLatestNews_placeholder_shape [] (Except.ok []) (str "q") 1 (str "T")
    (by decide) (Or.inl rfl)

theorem getLatestNews_total (perp : Except Unit (Option Str))
    (key : Str) (resp : Except Unit (List RawArticle))
    (q : Str) (limit : Nat) (now : Str) :
    ∃ r, getLatestNews perp key resp q limit now = Except.ok r := by
  unfold getLatestNews getNewsFromPerplexity getNewsFromNewsAPI
  cases perp with
  | ok c => exact ⟨_, rfl⟩
  | error e =>
    by_cases hk : key = []
    · simp [hk]
    · cases resp with
      | ok raws => simp [hk]
      | error e2 => simp [hk]

/-- C7 counterexample: the unrecognized label "constructor" does not
map to the generic template query — the lower-cased lookup finds the
property `constructor` inherited from `Object.prototype`, which is
truthy, so the `||` fallback never fires. -/
theorem c7_counterexample :
    categoryQuery (str "constructor") =
      QueryValue.ofInherited (str "constructor") ∧
    categoryQuery (str "constructor") ≠
      QueryValue.ofStr (str "latest constructor news today") := by decide

/-- C7 amended: whenever the mapped query is a string — for the eight
known labels (case-insensitively) and for every label whose
lower-casing is not a property name inherited from `Object.prototype` —
`getNewsByCategory` delegates to `getLatestNews` on that query and the
call returns a successful result; non-colliding unknown labels map to
the generic template, while a label colliding with an inherited
property receives the inherited truthy value, so its query is not a
string and in particular not the generic template. -/
theorem getNewsByCategory_query_mapping (perp : Except Unit (Option Str))
    (key : Str) (resp : Except Unit (List RawArticle))
    (category : Str) (limit : Nat) (now : Str) :
    (∀ s, categoryQuery category = QueryValue.ofStr s →
      getNewsByCategory perp key resp category limit now =
        some (getLatestNews perp key resp s limit now) ∧
      ∃ r, getLatestNews perp key resp s limit now = Except.ok r) ∧
    (categoryQueries (toLowerStr category) = PropLookup.undef →
      categoryQuery category =
        QueryValue.ofStr (str "latest " ++ category ++ str " news today")) ∧
    (∀ n, categoryQueries (toLowerStr category) = PropLookup.inherited n →
      ∀ s, categoryQuery category ≠ QueryValue.ofStr s) := by
  refine ⟨?_, ?_, ?_⟩
  · intro s hs
    constructor
    · simp [getNewsByCategory, hs]
    · exact getLatestNews_total perp key resp s limit now
  · intro h
    unfold categoryQuery
    rw [h]
  · intro n h s
    unfold categoryQuery
    rw [h]
    simp

/-- C7 amended, witness: the non-colliding unknown label "Crypto" maps
to the generic template and the call succeeds with the delegated
result. -/
theorem getNewsByCategory_query_mapping_witness :
    categoryQuery (str "Crypto") =
      QueryValue.ofStr (str "latest " ++ str "Crypto" ++ str " news today") ∧
    getNewsByCategory (Except.error ()) [] (Except.ok [])
        (str "Crypto") 5 (str "T") =
      some (getLatestNews (Except.error ()) [] (Except.ok [])
        (str "latest " ++ str "Crypto" ++ str " news today") 5 (str "T")) := by
  have h := getNewsByCategory_query_mapping (Except.error ()) []
    (Except.ok []) (str "Crypto") 5 (str "T")
  have hq := h.2.1 (by decide)
  exact ⟨hq, (h.1 _ hq).1⟩

/-- C8 counterexample: an article whose description is present but is
the empty string is not mapped with `summary = description`; the code's
`||` treats the empty string as absent, so the summary comes from the
content text instead. -/
theorem c8_counterexample :
    c8raw.description = some [] ∧
    (mapRawArticle c8raw).summary = str "Full story text..." ∧
    (mapRawArticle c8raw).summary ≠ [] := by decide

/-- C8 amended: on an alternate-provider success each article is mapped
1:1 — title, url, source name and publish time copied unchanged; the
summary is the description when it is present and non-empty; when the
description is absent or empty the summary is the content fallback,
which for a present content text is its first 200 characters followed by
the "..." marker. -/
theorem newsapi_field_mapping (key : Str) (raws : List RawArticle)
    (q : Str) (limit : Nat) (now : Str) (hk : key ≠ []) :
    getNewsFromNewsAPI key (Except.ok raws) q limit now =
      Except.ok { articles := raws.map mapRawArticle,
                  query := q, timestamp := now } ∧
    ∀ a : RawArticle,
      (mapRawArticle a).title = a.title ∧
      (mapRawArticle a).url = a.url ∧
      (mapRawArticle a).source = a.sourceName ∧
      (mapRawArticle a).publishedAt = a.publishedAt ∧
      (∀ d, a.description = some d → d ≠ [] →
        (mapRawArticle a).summary = d) ∧
      ((a.description = none ∨ a.description = some []) →
        (mapRawArticle a).summary = rawFallbackSummary a) ∧
      (∀ c, a.content = some c →
        rawFallbackSummary a = c.take 200 ++ str "...") := by
  constructor
  · simp [getNewsFromNewsAPI, hk]
  · intro a
    refine ⟨rfl, rfl, rfl, rfl, ?_, ?_, ?_⟩
    · intro d hd hne
      simp [mapRawArticle, hd, hne]
    · rintro (hd | hd) <;> simp [mapRawArticle, hd]
    · intro c hc
      simp [rawFallbackSummary, hc]

/-- C8 amended, witness: a concrete successful alternate-provider call
returns the 1:1 mapped article list. -/
theorem newsapi_field_mapping_witness :
    getNewsFromNewsAPI (str "k") (Except.ok [c8raw]) (str "q") 5
        (str "T") =
      Except.ok { articles := [mapRawArticle c8raw],
                  query := str "q", timestamp := str "T" } :=
  (newsapi_field_mapping (str "k") [c8raw] (str "q") 5 (str "T")
    (by decide)).1

theorem stepLine_no_title (now line : Str)
    (h : looksLikeTitle (trimChars line) = false) :
    stepLine now (none, []) line = (none, []) := by
  unfold stepLine
  simp [h]

theorem foldl_no_titles (now : Str) (ls : List Str)
    (h : ∀ l ∈ ls, looksLikeTitle (trimChars l) = false) :
    ls.foldl (stepLine now) (none, []) = (none, []) := by
  induction ls with
  | nil => rfl
  | cons l ls ih =>
    simp only [List.foldl_cons]
    rw [stepLine_no_title now l (h l (List.mem_cons_self l ls))]
    exact ih (fun x hx => h x (List.mem_cons_of_mem l hx))

/-- C6 amended: for every input whose trimmed text is non-empty and in
which no line satisfies a title heuristic, the parser returns exactly one
fallback item titled "Latest News Summary"; its summary is the first 500
characters of the trimmed input, and the truncation marker is appended
exactly when the raw (untrimmed) input is longer than 500 characters. -/
theorem parse_fallback_single_item (content now : Str)
    (h1 : trimChars content ≠ [])
    (h2 : ∀ l ∈ linesOf content, looksLikeTitle (trimChars l) = false) :
    parseNewsResponse content now =
      [{ title := str "Latest News Summary",
         summary := (trimChars content).take 500 ++
           (if 500 < content.length then str "..." else []),
         url := none, source := none, publishedAt := some now }] := by
  have hscan : scanArticles content now = [] := by
    unfold scanArticles scanState
    rw [foldl_no_titles now _ h2]
    rfl
  unfold parseNewsResponse parsedOrFallback
  rw [if_pos ⟨hscan, h1⟩]
  rfl

/-- C6 amended, witness: a concrete non-blank no-title text yields the
single fallback item. -/
theorem parse_fallback_single_item_witness :
    parseNewsResponse c6wContent (str "T") =
      [{ title := str "Latest News Summary",
         summary := (trimChars c6wContent).take 500 ++
           (if 500 < c6wContent.length then str "..." else []),
         url := none, source := none, publishedAt := some (str "T") }] :=
  parse_fallback_single_item c6wContent (str "T") (by decide) (by decide)

theorem finalizeCur_nonempty (cur : Option PartialArticle)
    (arts : List NewsArticle)
    (h : ∀ a ∈ arts, a.title ≠ [] ∧ a.summary ≠ []) :
    ∀ a ∈ finalizeCur cur arts, a.title ≠ [] ∧ a.summary ≠ [] := by
  intro a ha
  cases cur with
  | none => exact h a ha
  | some c =>
    simp only [finalizeCur] at ha
    split at ha
    · rename_i hc
      rcases List.mem_append.1 ha with hmem | hmem
      · exact h a hmem
      · have he : a = c.toArticle := List.mem_singleton.1 hmem
        subst he
        exact ⟨hc.1, hc.2⟩
    · exact h a ha

theorem stepLine_nonempty (now line : Str) (cur : Option PartialArticle)
    (arts : List NewsArticle)
    (h : ∀ a ∈ arts, a.title ≠ [] ∧ a.summary ≠ []) :
    ∀ a ∈ (stepLine now (cur, arts) line).2,
      a.title ≠ [] ∧ a.summary ≠ [] := by
  unfold stepLine
  split
  · exact h
  · split
    · exact finalizeCur_nonempty cur arts h
    · split
      · split
        · exact h
        · exact h
      · exact h

theorem foldl_stepLine_nonempty (now : Str) (ls : List Str) :
    ∀ (st : Option PartialArticle × List NewsArticle),
      (∀ a ∈ st.2, a.title ≠ [] ∧ a.summary ≠ []) →
      ∀ a ∈ (ls.foldl (stepLine now) st).2,
        a.title ≠ [] ∧ a.summary ≠ [] := by
  induction ls with
  | nil => intro st h; exact h
  | cons l ls ih =>
    intro st h
    simp only [List.foldl_cons]
    refine ih _ ?_
    obtain ⟨cur, arts⟩ := st
    exact stepLine_nonempty now l cur arts h

/-- C9: every item returned by `parseNewsResponse` has a non-empty title
and a non-empty summary, for every input text. -/
theorem parse_items_nonempty (content now : Str) :
    ∀ a ∈ parseNewsResponse content now,
      a.title ≠ [] ∧ a.summary ≠ [] := by
  intro a ha
  have ha1 : a ∈ parsedOrFallback content now := List.mem_of_mem_take ha
  unfold parsedOrFallback at ha1
  split at ha1
  · rename_i hcond
    have he : a = fallbackArticle content now := List.mem_singleton.1 ha1
    subst he
    constructor
    · intro hti
      have hti2 : str "Latest News Summary" = ([] : Str) := hti
      exact absurd hti2 (by decide)
    · show (trimChars content).take 500 ++ _ ≠ []
      have h1 : trimChars content ≠ [] := hcond.2
      cases htr : trimChars content with
      | nil => exact absurd htr h1
      | cons c cs => simp [htr]
  · unfold scanArticles at ha1
    exact finalizeCur_nonempty _ _
      (foldl_stepLine_nonempty now (linesOf content) (none, [])
        (fun x hx => absurd hx (List.not_mem_nil x))) a ha1

/-- C9 witness: a concrete parsed article has non-empty title and
summary. -/
theorem parse_items_nonempty_witness :
    c9wArticle ∈ parseNewsResponse c9wContent (str "T") ∧
      (c9wArticle.title ≠ [] ∧ c9wArticle.summary ≠ []) :=
  ⟨by decide,
    parse_items_nonempty c9wContent (str "T") c9wArticle (by decide)⟩

theorem finalizeCur_fromTitle (now : Str) (L : List Str)
    (cur : Option PartialArticle) (arts : List NewsArticle)
    (hc : ∀ c, cur = some c →
      fromTitleLine now L c.title c.source c.publishedAt)
    (h : ∀ a ∈ arts, fromTitleLine now L a.title a.source a.publishedAt) :
    ∀ a ∈ finalizeCur cur arts,
      fromTitleLine now L a.title a.source a.publishedAt := by
  intro a ha
  cases cur with
  | none => exact h a ha
  | some c =>
    simp only [finalizeCur] at ha
    split at ha
    · rcases List.mem_append.1 ha with hmem | hmem
      · exact h a hmem
      · have he : a = c.toArticle := List.mem_singleton.1 hmem
        subst he
        exact hc c rfl
    · exact h a ha

theorem stepLine_fromTitle (now line : Str) (L : List Str)
    (hline : line ∈ L) (cur : Option PartialArticle)
    (arts : List NewsArticle)
    (hc : ∀ c, cur = some c →
      fromTitleLine now L c.title c.source c.publishedAt)
    (h : ∀ a ∈ arts, fromTitleLine now L a.title a.source a.publishedAt) :
    (∀ c, (stepLine now (cur, arts) line).1 = some c →
      fromTitleLine now L c.title c.source c.publishedAt) ∧
    (∀ a ∈ (stepLine now (cur, arts) line).2,
      fromTitleLine now L a.title a.source a.publishedAt) := by
  unfold stepLine
  split
  · exact ⟨hc, h⟩
  · split
    · rename_i hne htitle
      constructor
      · intro c hcc
        have he := Option.some.inj hcc
        subst he
        exact ⟨line, hline, htitle, rfl, rfl, rfl⟩
      · exact finalizeCur_fromTitle now L cur arts hc h
    · split
      · rename_i c2 heq
        split
        · constructor
          · intro c3 hcc
            have he := Option.some.inj hcc
            subst he
            obtain ⟨l, hl, h1, h2, h3, h4⟩ := hc c2 heq
            exact ⟨l, hl, h1, h2, h3, h4⟩
          · exact h
        · exact ⟨hc, h⟩
      · exact ⟨hc, h⟩

theorem foldl_stepLine_fromTitle (now : Str) (L : List Str) :
    ∀ (ls : List Str), (∀ l ∈ ls, l ∈ L) →
    ∀ (cur : Option PartialArticle) (arts : List NewsArticle),
      (∀ c, cur = some c →
        fromTitleLine now L c.title c.source c.publishedAt) →
      (∀ a ∈ arts, fromTitleLine now L a.title a.source a.publishedAt) →
      (∀ c, (ls.foldl (stepLine now) (cur, arts)).1 = some c →
        fromTitleLine now L c.title c.source c.publishedAt) ∧
      (∀ a ∈ (ls.foldl (stepLine now) (cur, arts)).2,
        fromTitleLine now L a.title a.source a.publishedAt) := by
  intro ls
  induction ls with
  | nil => intro _ cur arts hc h; exact ⟨hc, h⟩
  | cons l ls ih =>
    intro hsub cur arts hc h
    simp only [List.foldl_cons]
    have hstep := stepLine_fromTitle now l L
      (hsub l (List.mem_cons_self l ls)) cur arts hc h
    rcases hpair : stepLine now (cur, arts) l with ⟨cur2, arts2⟩
    rw [hpair] at hstep
    exact ih (fun x hx => hsub x (List.mem_cons_of_mem l hx))
      cur2 arts2 hstep.1 hstep.2

/-- C10: every item produced by the line-scanning loop took its title,
source and `publishedAt` from a single input line classified as its
title line; `publishedAt` is the current timestamp exactly when that
title line contains a relative-time word, so time words occurring only
in continuation lines never set it, and the source likewise comes from
the title line only. -/
theorem scan_fields_from_title_line (content now : Str) :
    ∀ a ∈ scanArticles content now,
      ∃ l, l ∈ linesOf content ∧ looksLikeTitle (trimChars l) = true ∧
        a.title = cleanTitle (trimChars l) ∧
        a.source = extractSource (trimChars l) ∧
        a.publishedAt = extractDate now (trimChars l) ∧
        (a.publishedAt = some now ↔ hasTimeWord (trimChars l) = true) := by
  intro a ha
  have hinv := foldl_stepLine_fromTitle now (linesOf content)
    (linesOf content) (fun l hl => hl) none []
    (fun c hc => absurd hc (by simp))
    (fun x hx => absurd hx (List.not_mem_nil x))
  unfold scanArticles at ha
  have hfin := finalizeCur_fromTitle now (linesOf content)
    (scanState content now).1 (scanState content now).2 hinv.1 hinv.2
  obtain ⟨l, hl, h1, h2, h3, h4⟩ := hfin a ha
  refine ⟨l, hl, h1, h2, h3, h4, ?_⟩
  rw [h4]
  by_cases ht : hasTimeWord (trimChars l)
  · simp [extractDate, ht]
  · simp [extractDate, ht]

/-- C10 witness: the concrete item parsed from a title line containing
"today" carries `publishedAt = now`, extracted from that title line. -/
theorem scan_fields_from_title_line_witness :
    c10wArticle ∈ scanArticles c10wContent (str "T") ∧
    (∃ l, l ∈ linesOf c10wContent ∧
      looksLikeTitle (trimChars l) = true ∧
      c10wArticle.title = cleanTitle (trimChars l) ∧
      c10wArticle.source = extractSource (trimChars l) ∧
      c10wArticle.publishedAt = extractDate (str "T") (trimChars l) ∧
      (c10wArticle.publishedAt = some (str "T") ↔
        hasTimeWord (trimChars l) = true)) :=
  ⟨by decide,
    scan_fields_from_title_line c10wContent (str "T") c10wArticle
      (by decide)⟩

end NewsAI
